import Mathlib

/-!
# Verification of the prompt-alchemy utility scripts

Shallow embedding of the three Python utility scripts of this repository:

* `scripts/extract-mermaid-diagrams.py` (the Diagram-Extractor),
* `qdrant-examples.py` (the API-Client), and
* `test-mcp.py` (the RPC-Probe),

together with theorems settling the specification claims about them.

Documents and stream lines are modelled as `List Char`; the filesystem as a
partial map from path strings to file contents; HTTP transport outcomes as
`Except` values whose `error` constructor stands for a raised exception; JSON
values as the inductive `JVal` (numbers as `Int`: none of the claims depends
on float arithmetic).
-/

/-! ## Diagram-Extractor: the mermaid fence scanner

`extract-mermaid-diagrams.py` finds all matches of the Python regex
`r'```mermaid\n(.*?)\n```'` (with `re.DOTALL`) in the document.  A match
begins with the literal opener, captures the shortest character span (newlines
included) that is followed by the literal closer, and scanning resumes after
the closer, so matches never overlap.  `scanMermaid` below implements exactly
that left-to-right, shortest-capture, non-overlapping search.
-/

/-- The backtick character (written by code so that the source file itself
contains backticks only inside strings and comments). -/
def btick : Char := '\x60'

/-- The opening delimiter of a fenced mermaid block: the characters of
"```mermaid\n". -/
def mOpen : List Char :=
  [btick, btick, btick, 'm', 'e', 'r', 'm', 'a', 'i', 'd', '\n']

/-- The closing delimiter of a fenced mermaid block: the characters of
"\n```". -/
def mClose : List Char := ['\n', btick, btick, btick]

/-- The non-greedy part of the regex: find the shortest prefix of `l` that is
followed by `mClose`, returning that capture and the characters after the
closer; `none` when no closer occurs. -/
def findClose : List Char → Option (List Char × List Char)
  | [] => none
  | c :: cs =>
    if mClose.isPrefixOf (c :: cs) then
      some ([], (c :: cs).drop mClose.length)
    else
      match findClose cs with
      | some (cap, rest) => some (c :: cap, rest)
      | none => none

theorem findClose_length :
    ∀ (l cap rest : List Char), findClose l = some (cap, rest) →
      rest.length ≤ l.length := by
  intro l
  induction l with
  | nil => intro cap rest h; simp [findClose] at h
  | cons c cs ih =>
    intro cap rest h
    rw [findClose] at h
    split at h
    · simp only [Option.some.injEq, Prod.mk.injEq] at h
      obtain ⟨h1, h2⟩ := h
      subst h2
      simp only [List.length_drop]
      omega
    · cases hfc : findClose cs with
      | none => rw [hfc] at h; exact absurd h (by simp)
      | some pr =>
        rw [hfc] at h
        obtain ⟨cap', rest'⟩ := pr
        simp only [Option.some.injEq, Prod.mk.injEq] at h
        obtain ⟨h1, h2⟩ := h
        subst h2
        have := ih cap' rest' hfc
        simp only [List.length_cons]
        omega

/-- One match of the regex at the head of the document: the scanner consumes
`mOpen`, takes the shortest capture up to `mClose`, and continues after it;
at any position where the opener does not match it advances one character. -/
def scanMermaid (l : List Char) : List (List Char) :=
  match l with
  | [] => []
  | c :: cs =>
    if mOpen.isPrefixOf (c :: cs) then
      match h : findClose ((c :: cs).drop mOpen.length) with
      | some capRest => capRest.1 :: scanMermaid capRest.2
      | none => scanMermaid cs
    else
      scanMermaid cs
termination_by l.length
decreasing_by
  · rcases capRest with ⟨cap, rest⟩
    have hle := findClose_length _ _ _ h
    have hm : 0 < mOpen.length := by decide
    simp only [List.length_drop, List.length_cons] at hle ⊢
    omega
  · simp
  · simp

theorem scanMermaid_nil : scanMermaid [] = [] := by
  rw [scanMermaid]

theorem scanMermaid_cons_skip (c : Char) (cs : List Char)
    (hop : mOpen.isPrefixOf (c :: cs) = false) :
    scanMermaid (c :: cs) = scanMermaid cs := by
  rw [scanMermaid]
  simp [hop]

theorem scanMermaid_cons_open (c : Char) (cs cap rest : List Char)
    (hop : mOpen.isPrefixOf (c :: cs) = true)
    (hfc : findClose ((c :: cs).drop mOpen.length) = some (cap, rest)) :
    scanMermaid (c :: cs) = cap :: scanMermaid rest := by
  rw [scanMermaid]
  simp only [hop, if_true]
  split
  · rename_i capRest heq
    rw [heq] at hfc
    simp only [Option.some.injEq] at hfc
    rw [hfc]
  · rename_i heq
    rw [heq] at hfc
    exact absurd hfc (by simp)

/-! ### Behaviour of the scanner on well-formed documents

A well-formed document is a prefix, then a sequence of fenced blocks each
followed by trailing text, where neither the non-block text nor the diagram
bodies contain a backtick.  On such documents the scanner returns exactly the
list of diagram bodies.
-/

/-- Text assembled from fenced mermaid blocks: each pair is a diagram body
and the plain text that follows its closing fence. -/
def mermaidBlocks : List (List Char × List Char) → List Char
  | [] => []
  | (d, p) :: bs => mOpen ++ (d ++ (mClose ++ (p ++ mermaidBlocks bs)))

/-- A document made of leading plain text followed by fenced blocks. -/
def buildDoc (pre : List Char) (bs : List (List Char × List Char)) : List Char :=
  pre ++ mermaidBlocks bs

theorem mClose_not_prefix_of_body (a : Char) (d' t : List Char)
    (hd' : btick ∉ d') :
    mClose.isPrefixOf (a :: (d' ++ (mClose ++ t))) = false := by
  cases d' with
  | nil =>
    simp only [List.nil_append]
    show (['\n', btick, btick, btick] : List Char).isPrefixOf _ = false
    simp only [List.isPrefixOf, List.cons_append, Bool.and_eq_false_imp]
    simp [mClose, btick]
  | cons b d'' =>
    have hb : b ≠ btick := by
      intro hcontra
      exact hd' (by simp [hcontra])
    show (['\n', btick, btick, btick] : List Char).isPrefixOf _ = false
    simp only [List.cons_append, List.isPrefixOf]
    simp [Ne.symm hb]

theorem findClose_body (d t : List Char) (hd : btick ∉ d) :
    findClose (d ++ (mClose ++ t)) = some (d, t) := by
  induction d with
  | nil =>
    simp only [List.nil_append]
    show findClose ('\n' :: ([btick, btick, btick] ++ t)) = some ([], t)
    rw [findClose]
    have hpre : mClose.isPrefixOf ('\n' :: ([btick, btick, btick] ++ t)) = true := by
      have : ('\n' :: ([btick, btick, btick] ++ t)) = mClose ++ t := by
        simp [mClose]
      rw [this]
      exact List.isPrefixOf_iff_prefix.mpr (List.prefix_append _ _)
    rw [hpre]
    simp only [if_true]
    congr 1
  | cons a d' ih =>
    have hd' : btick ∉ d' := fun hmem => hd (by simp [hmem])
    rw [List.cons_append, findClose]
    rw [mClose_not_prefix_of_body a d' t hd']
    simp only [Bool.false_eq_true, if_false]
    rw [ih hd']

theorem scanMermaid_append_pre (pre s : List Char) (hpre : btick ∉ pre) :
    scanMermaid (pre ++ s) = scanMermaid s := by
  induction pre with
  | nil => rfl
  | cons a pre' ih =>
    have ha : a ≠ btick := by
      intro hcontra
      exact hpre (by simp [hcontra])
    have hpre' : btick ∉ pre' := fun hmem => hpre (by simp [hmem])
    rw [List.cons_append]
    rw [scanMermaid_cons_skip]
    · exact ih hpre'
    · show (btick :: _ : List Char).isPrefixOf _ = false
      simp only [List.isPrefixOf]
      simp [Ne.symm ha]

theorem scanMermaid_buildDoc (pre : List Char)
    (bs : List (List Char × List Char)) (hpre : btick ∉ pre)
    (hbs : ∀ b ∈ bs, btick ∉ b.1 ∧ btick ∉ b.2) :
    scanMermaid (buildDoc pre bs) = bs.map Prod.fst := by
  induction bs generalizing pre with
  | nil =>
    rw [buildDoc, mermaidBlocks, List.append_nil, List.map_nil]
    have h0 := scanMermaid_append_pre pre [] hpre
    rw [List.append_nil] at h0
    rw [h0, scanMermaid_nil]
  | cons b bs' ih =>
    obtain ⟨d, p⟩ := b
    have hd : btick ∉ d := (hbs (d, p) (by simp)).1
    have hp : btick ∉ p := (hbs (d, p) (by simp)).2
    have hbs' : ∀ b ∈ bs', btick ∉ b.1 ∧ btick ∉ b.2 :=
      fun b hb => hbs b (by simp [hb])
    rw [buildDoc, mermaidBlocks]
    rw [scanMermaid_append_pre pre _ hpre]
    have hopen : mOpen.isPrefixOf (mOpen ++ (d ++ (mClose ++ (p ++ mermaidBlocks bs')))) = true :=
      List.isPrefixOf_iff_prefix.mpr (List.prefix_append _ _)
    have hstep : (mOpen ++ (d ++ (mClose ++ (p ++ mermaidBlocks bs')))) =
        btick :: (mOpen.tail ++ (d ++ (mClose ++ (p ++ mermaidBlocks bs')))) := by
      rfl
    rw [hstep] at hopen ⊢
    rw [scanMermaid_cons_open _ _ d (p ++ mermaidBlocks bs') hopen]
    · rw [List.map_cons]
      congr 1
      have : scanMermaid (p ++ mermaidBlocks bs') = scanMermaid (buildDoc p bs') := by
        rw [buildDoc]
      rw [this]
      exact ih p hp hbs'
    · rw [← hstep, List.drop_left' (by rfl)]
      exact findClose_body d (p ++ mermaidBlocks bs') hd

/-! ## Diagram-Extractor: file naming and output

`extract_mermaid_diagrams` numbers the found diagrams with
`enumerate(diagrams, 1)` and writes diagram `i` to
`os.path.join(output_dir, f"{base_name}-diagram-{i}.mmd")` where `base_name`
is `os.path.splitext(os.path.basename(input_file))[0]`.
-/

/-- Python `enumerate(l, k)`: pair each element with its index, counting
from `k`. -/
def numberFrom (k : Nat) : List α → List (Nat × α)
  | [] => []
  | d :: ds => (k, d) :: numberFrom (k + 1) ds

/-- `os.path.basename` on a POSIX path: the part after the last slash. -/
def afterLastSlash (l : List Char) : List Char :=
  ((l.reverse.takeWhile fun c => c ≠ '/').reverse)

/-- `os.path.splitext(name)[0]` on a bare file name: drop the suffix that
starts at the last dot, except when every character before that dot is a dot
(CPython keeps leading-dot names such as ".bashrc" whole). -/
def stripExt (name : List Char) : List Char :=
  let tailLen := ((name.reverse.takeWhile fun c => c ≠ '.').length)
  if tailLen = name.length then name
  else
    let stem := name.take (name.length - tailLen - 1)
    if stem.all fun c => c = '.' then name
    else stem

/-- `os.path.splitext(os.path.basename(input_file))[0]`. -/
def baseNameNoExt (p : String) : String :=
  String.mk (stripExt (afterLastSlash p.toList))

/-- The output path of diagram `i`:
`os.path.join(output_dir, f"{base_name}-diagram-{i}.mmd")`. -/
def diagramFileName (output_dir base_name : String) (i : Nat) : String :=
  output_dir ++ "/" ++ base_name ++ "-diagram-" ++ toString i ++ ".mmd"

/-- The pure content of `extract_mermaid_diagrams`: the list of
(output path, file contents) pairs it writes, in order.  The contents written
for diagram `i` are exactly the regex capture, unchanged. -/
def extract_mermaid_diagrams (input_file output_dir : String)
    (content : List Char) : List (String × List Char) :=
  (numberFrom 1 (scanMermaid content)).map
    fun p => (diagramFileName output_dir (baseNameNoExt input_file) p.1, p.2)

/-- Writing one file: overwrite whatever was at that path. -/
def writeFile (fs : String → Option (List Char)) (name : String)
    (contents : List Char) : String → Option (List Char) :=
  fun p => if p = name then some contents else fs p

/-- Writing a list of files in order (later writes win). -/
def writeAll (fs : String → Option (List Char)) :
    List (String × List Char) → (String → Option (List Char))
  | [] => fs
  | (n, c) :: rest => writeAll (writeFile fs n c) rest

/-- The last write to path `p` among the listed writes, if any. -/
def findLastWrite (l : List (String × List Char)) (p : String) :
    Option (List Char) :=
  match l with
  | [] => none
  | (n, c) :: rest =>
    match findLastWrite rest p with
    | some c' => some c'
    | none => if p = n then some c else none

theorem writeAll_eval (l : List (String × List Char))
    (fs : String → Option (List Char)) (p : String) :
    writeAll fs l p =
      match findLastWrite l p with
      | some c => some c
      | none => fs p := by
  induction l generalizing fs with
  | nil => rfl
  | cons nc rest ih =>
    obtain ⟨n, c⟩ := nc
    rw [writeAll, findLastWrite, ih]
    cases findLastWrite rest p with
    | some c' => rfl
    | none =>
      simp only [writeFile]
      by_cases hpn : p = n
      · simp [hpn]
      · simp [hpn]

theorem writeAll_idempotent (l : List (String × List Char))
    (fs : String → Option (List Char)) :
    writeAll (writeAll fs l) l = writeAll fs l := by
  funext p
  rw [writeAll_eval, writeAll_eval]
  cases findLastWrite l p with
  | some c => rfl
  | none => rfl

theorem numberFrom_map_snd (l : List α) (k : Nat) :
    (numberFrom k l).map Prod.snd = l := by
  induction l generalizing k with
  | nil => rfl
  | cons d ds ih => rw [numberFrom, List.map_cons, ih]

theorem numberFrom_length (l : List α) (k : Nat) :
    (numberFrom k l).length = l.length := by
  induction l generalizing k with
  | nil => rfl
  | cons d ds ih => rw [numberFrom, List.length_cons, ih, List.length_cons]

theorem numberFrom_map_fst (l : List α) (k : Nat) (g : Nat → β) :
    (numberFrom k l).map (fun p => g p.1) =
      (List.range l.length).map (fun i => g (i + k)) := by
  induction l generalizing k with
  | nil => rfl
  | cons d ds ih =>
    rw [numberFrom, List.map_cons, List.length_cons,
      List.range_succ_eq_map, List.map_cons, List.map_map]
    rw [ih (k + 1)]
    congr 1
    · simp
    · apply List.map_congr_left
      intro i _
      simp only [Function.comp_apply, Nat.succ_eq_add_one]
      congr 1
      omega

/-! ## Diagram-Extractor: the `main` entry point

`main` prints a usage line and exits 1 when fewer than two `sys.argv` entries
are present; prints an error and exits 1 when the input path does not exist;
otherwise runs the extraction (creating the output directory), prints a
summary and the advisory `mmdc` render commands, and exits 0.
-/

/-- Python `str.replace(pat, rep)`: replace every non-overlapping occurrence
of `pat`, scanning left to right.  (The `pat = []` guard is only for
termination; the script always calls this with the pattern ".mmd".) -/
def replaceList (pat rep : List Char) : List Char → List Char
  | [] => []
  | c :: cs =>
    if pat ≠ [] ∧ pat.isPrefixOf (c :: cs) then
      rep ++ replaceList pat rep ((c :: cs).drop pat.length)
    else
      c :: replaceList pat rep cs
termination_by l => l.length
decreasing_by
  · obtain ⟨hne, -⟩ := ‹pat ≠ [] ∧ _›
    have : 0 < pat.length := List.length_pos.mpr hne
    simp only [List.length_drop, List.length_cons]
    omega
  · simp

/-- The advisory render command printed for one extracted file. -/
def mmdcCommand (file : String) : String :=
  let svg := String.mk (replaceList ".mmd".toList ".svg".toList file.toList)
  "mmdc -i " ++ file ++ " -o " ++ svg ++
    " --theme default --backgroundColor transparent"

/-- The per-diagram progress lines printed inside `extract_mermaid_diagrams`. -/
def extractPrints (outs : List (String × List Char)) : List String :=
  (numberFrom 1 outs).map
    fun p => "Extracted diagram " ++ toString p.1 ++ " to " ++ p.2.1

/-- The filesystem state visible to the script: file contents by path, plus
the set of directories that exist. -/
structure World where
  files : String → Option (List Char)
  dirs : List String

/-- Observable outcome of one run of `main`: the exit code, the filesystem
afterwards, and the printed lines. -/
structure MainResult where
  exitCode : Nat
  world : World
  output : List String

/-- The usage line printed when no input file is given. -/
def usageLine : String :=
  "Usage: extract-mermaid-diagrams.py <markdown-file> [output-dir]"

/-- The default output directory baked into `main`. -/
def defaultOutputDir : String := "docs/assets/diagrams/mermaid"

/-- The whole of `main`, as a function of the argument vector (`sys.argv`,
script name included) and the filesystem. -/
def runMain (argv : List String) (w : World) : MainResult :=
  if argv.length < 2 then
    ⟨1, w, [usageLine]⟩
  else
    let input_file := argv.getD 1 ""
    let output_dir := if 2 < argv.length then argv.getD 2 "" else defaultOutputDir
    match w.files input_file with
    | none => ⟨1, w, ["Error: File " ++ input_file ++ " not found"]⟩
    | some content =>
      let outs := extract_mermaid_diagrams input_file output_dir content
      ⟨0, ⟨writeAll w.files outs, output_dir :: w.dirs⟩,
        extractPrints outs ++
          ["\nExtracted " ++ toString outs.length ++ " diagrams",
           "\nTo render these diagrams, run:"] ++
          outs.map fun p => mmdcCommand p.1⟩

/-! ## Claims about the Diagram-Extractor -/

/-- C1: for every well-formed input document (leading text, then fenced
mermaid blocks each followed by trailing text, with no backtick outside the
fence delimiters), the extractor produces exactly one output file per fenced
mermaid block, and each output file's content is byte-for-byte the text
between that block's opening `mermaid` fence line and its closing fence. -/
theorem extractor_one_file_per_block_exact_content
    (input_file output_dir : String) (pre : List Char)
    (bs : List (List Char × List Char)) (hpre : btick ∉ pre)
    (hbs : ∀ b ∈ bs, btick ∉ b.1 ∧ btick ∉ b.2) :
    (extract_mermaid_diagrams input_file output_dir (buildDoc pre bs)).length
        = bs.length ∧
    (extract_mermaid_diagrams input_file output_dir (buildDoc pre bs)).map
        Prod.snd = bs.map Prod.fst := by
  constructor
  · rw [extract_mermaid_diagrams, List.length_map, numberFrom_length,
      scanMermaid_buildDoc pre bs hpre hbs, List.length_map]
  · rw [extract_mermaid_diagrams, List.map_map]
    have hcomp : (Prod.snd ∘ fun p : Nat × List Char =>
        (diagramFileName output_dir (baseNameNoExt input_file) p.1, p.2)) =
        (Prod.snd : Nat × List Char → List Char) := by
      funext p
      rfl
    rw [hcomp, numberFrom_map_snd, scanMermaid_buildDoc pre bs hpre hbs]

/-- Witness for C1: a two-line document with one mermaid block whose body is
the single character "A". -/
theorem extractor_one_file_per_block_exact_content_witness :
    btick ∉ (['#', '\n'] : List Char) ∧
    (∀ b ∈ ([((['A'] : List Char), (['\n'] : List Char))] :
        List (List Char × List Char)), btick ∉ b.1 ∧ btick ∉ b.2) ∧
    ((extract_mermaid_diagrams "design.md" "docs"
        (buildDoc ['#', '\n'] [((['A'] : List Char), ['\n'])])).length =
      ([((['A'] : List Char), (['\n'] : List Char))] :
        List (List Char × List Char)).length ∧
    (extract_mermaid_diagrams "design.md" "docs"
        (buildDoc ['#', '\n'] [((['A'] : List Char), ['\n'])])).map Prod.snd =
      ([((['A'] : List Char), (['\n'] : List Char))] :
        List (List Char × List Char)).map Prod.fst) :=
  ⟨by decide, by decide,
    extractor_one_file_per_block_exact_content "design.md" "docs"
      ['#', '\n'] [(['A'], ['\n'])] (by decide) (by decide)⟩

/-- C6: extraction is deterministic and idempotent: output files are named
`<output-dir>/<source-basename>-diagram-<n>.mmd` with `n` counting the
diagrams 1-based in document order, their contents are the scanned diagrams
in document order, and re-running the same writes over any filesystem state
changes nothing further (identical names and contents are overwritten). -/
theorem extractor_deterministic_idempotent (input_file output_dir : String)
    (content : List Char) (fs : String → Option (List Char)) :
    (extract_mermaid_diagrams input_file output_dir content).map Prod.fst =
      (List.range (scanMermaid content).length).map
        (fun i => diagramFileName output_dir (baseNameNoExt input_file) (i + 1)) ∧
    (extract_mermaid_diagrams input_file output_dir content).map Prod.snd =
      scanMermaid content ∧
    writeAll
        (writeAll fs (extract_mermaid_diagrams input_file output_dir content))
        (extract_mermaid_diagrams input_file output_dir content) =
      writeAll fs (extract_mermaid_diagrams input_file output_dir content) := by
  refine ⟨?_, ?_, ?_⟩
  · rw [extract_mermaid_diagrams, List.map_map]
    exact numberFrom_map_fst (scanMermaid content) 1
      (diagramFileName output_dir (baseNameNoExt input_file))
  · rw [extract_mermaid_diagrams, List.map_map]
    have hcomp : (Prod.snd ∘ fun p : Nat × List Char =>
        (diagramFileName output_dir (baseNameNoExt input_file) p.1, p.2)) =
        (Prod.snd : Nat × List Char → List Char) := by
      funext p
      rfl
    rw [hcomp, numberFrom_map_snd]
  · exact writeAll_idempotent _ fs

/-- Concrete filesystem used by the CLI witnesses: no files, no dirs. -/
def emptyWorld : World := ⟨fun _ => none, []⟩

/-- C7: with an input-file argument present, `main` exits 1 printing an error
and leaves the filesystem untouched (no directory created, no file written)
when the input path does not exist, and exits 0 printing the
"Extracted N diagrams" summary when it does. -/
theorem main_error_on_missing_file_success_otherwise
    (argv : List String) (w : World) (hlen : 2 ≤ argv.length) :
    (w.files (argv.getD 1 "") = none →
      runMain argv w =
        ⟨1, w, ["Error: File " ++ argv.getD 1 "" ++ " not found"]⟩) ∧
    (∀ content, w.files (argv.getD 1 "") = some content →
      (runMain argv w).exitCode = 0 ∧
      ∃ n : Nat, ("\nExtracted " ++ toString n ++ " diagrams") ∈
        (runMain argv w).output) := by
  have hnotlt : ¬ argv.length < 2 := by omega
  constructor
  · intro hnone
    rw [runMain, if_neg hnotlt]
    simp only [hnone]
  · intro content hsome
    rw [runMain, if_neg hnotlt]
    simp only [hsome]
    refine ⟨trivial, ?_⟩
    refine ⟨(extract_mermaid_diagrams (argv.getD 1 "")
      (if 2 < argv.length then argv.getD 2 "" else defaultOutputDir)
      content).length, ?_⟩
    simp

/-- Witness for C7, exercising the missing-input branch at a concrete
argument vector and empty filesystem. -/
theorem main_error_on_missing_file_success_otherwise_witness :
    2 ≤ (["extract-mermaid-diagrams.py", "design.md"] : List String).length ∧
    ((emptyWorld.files
        ((["extract-mermaid-diagrams.py", "design.md"] : List String).getD 1 "")
          = none →
      runMain ["extract-mermaid-diagrams.py", "design.md"] emptyWorld =
        ⟨1, emptyWorld,
          ["Error: File " ++
            (["extract-mermaid-diagrams.py", "design.md"] : List String).getD 1 ""
            ++ " not found"]⟩) ∧
    (∀ content,
      emptyWorld.files
        ((["extract-mermaid-diagrams.py", "design.md"] : List String).getD 1 "")
          = some content →
      (runMain ["extract-mermaid-diagrams.py", "design.md"] emptyWorld).exitCode
          = 0 ∧
      ∃ n : Nat, ("\nExtracted " ++ toString n ++ " diagrams") ∈
        (runMain ["extract-mermaid-diagrams.py", "design.md"] emptyWorld).output)) :=
  ⟨by decide,
    main_error_on_missing_file_success_otherwise
      ["extract-mermaid-diagrams.py", "design.md"] emptyWorld (by decide)⟩

/-- C10: invoked with no file argument, `main` prints the usage message and
exits with code 1, touching neither files nor directories. -/
theorem main_usage_on_no_args (argv : List String) (w : World)
    (h : argv.length < 2) :
    runMain argv w = ⟨1, w, [usageLine]⟩ := by
  rw [runMain, if_pos h]

/-- Witness for C10 at the bare program name. -/
theorem main_usage_on_no_args_witness :
    (["extract-mermaid-diagrams.py"] : List String).length < 2 ∧
    runMain ["extract-mermaid-diagrams.py"] emptyWorld =
      ⟨1, emptyWorld, [usageLine]⟩ :=
  ⟨by decide,
    main_usage_on_no_args ["extract-mermaid-diagrams.py"] emptyWorld (by decide)⟩

/-! ## A model of parsed JSON values and Python dictionary/value semantics

JSON numbers are modelled as `Int`; no claim depends on fractional values.
`Option`-valued helpers model Python operations that can raise: a `none`
result stands for a raised exception, which every caller in the scripts
catches (API-Client) or lets run to the enclosing handler (RPC-Probe).
-/

/-- A parsed JSON value. -/
inductive JVal where
  | null : JVal
  | bool : Bool → JVal
  | num : Int → JVal
  | str : String → JVal
  | arr : List JVal → JVal
  | obj : List (String × JVal) → JVal

/-- Key lookup in a parsed JSON object (Python dicts have unique keys, so
first match is the value). -/
def plookup (k : String) : List (String × JVal) → Option JVal
  | [] => none
  | (k', v) :: fs => if k' = k then some v else plookup k fs

/-- Python truthiness of a parsed JSON value. -/
def pyTruthy : JVal → Bool
  | .null => false
  | .bool b => b
  | .num n => n ≠ 0
  | .str s => s ≠ ""
  | .arr xs => !xs.isEmpty
  | .obj fs => !fs.isEmpty

/-- Truthiness of the result of a `dict.get` (Python `None` when absent). -/
def pyTruthyOpt : Option JVal → Bool
  | none => false
  | some v => pyTruthy v

/-- Python `v.get(k)`: outer `none` models the `AttributeError` raised when
`v` is not a dict; inner `none` is Python `None` for an absent key. -/
def pyGet : JVal → String → Option (Option JVal)
  | .obj fs, k => some (plookup k fs)
  | _, _ => none

/-- Python `v.get(k, d)`: `none` models the raise on a non-dict. -/
def pyGetD (v : JVal) (k : String) (d : JVal) : Option JVal :=
  (pyGet v k).map fun r => r.getD d

/-- Python `v[k]` subscript with a string key: `none` models both the
`TypeError` on non-dicts and the `KeyError` on a missing key. -/
def pySub (v : JVal) (k : String) : Option JVal :=
  match v with
  | .obj fs => plookup k fs
  | _ => none

/-- Python `len(v)`: defined for strings, lists and dicts, raises otherwise. -/
def pyLen : JVal → Option Nat
  | .str s => some s.length
  | .arr xs => some xs.length
  | .obj fs => some fs.length
  | _ => none

/-- Python `v[:n]` slices: defined for strings and lists, raises otherwise. -/
def pySlice (v : JVal) (n : Nat) : Option JVal :=
  match v with
  | .str s => some (.str (String.mk (s.toList.take n)))
  | .arr xs => some (.arr (xs.take n))
  | _ => none

/-- Python `v[0]`: first element of a list, one-character string of a string;
raises on empty sequences and on every other type. -/
def pyIndex0 : JVal → Option JVal
  | .arr (x :: _) => some x
  | .str s =>
    match s.toList with
    | c :: _ => some (.str (String.mk [c]))
    | [] => none
  | _ => none

/-- Python iteration `for x in v`: list elements, the one-character strings
of a string, or the keys of a dict; raises on non-iterables. -/
def pyElems : JVal → Option (List JVal)
  | .arr xs => some xs
  | .str s => some (s.toList.map fun c => .str (String.mk [c]))
  | .obj fs => some (fs.map fun p => JVal.str p.1)
  | _ => none

/-! ## API-Client (`qdrant-examples.py`)

Every operation of `QdrantClient` performs one HTTP call inside
`try: ... except Exception: ...`.  The transport outcome is modelled as
`Except String HResp`: `.error` is a raised request exception, `.ok` a
received response whose `body` is the parsed JSON (`none` when `.json()`
itself raises).  Each operation below maps the outcome to the value the
Python method returns; totality of these functions is the "no exception
escapes the client" discipline, with every except-branch an explicit case.
-/

/-- An HTTP response as the client sees it: status code plus what
`response.json()` would yield (`none` when parsing raises). -/
structure HResp where
  status_code : Nat
  body : Option JVal

/-- Outcome of one `requests` call: `error` models a raised exception. -/
abbrev TResult := Except String HResp

/-- Python `response.json().get("status") == "ok"` for an already-parsed
body value: true exactly on the string "ok". -/
def isOkStr : Option JVal → Bool
  | some (.str s) => s == "ok"
  | _ => false

/-- `QdrantClient.health_check`: true iff status 200 and the JSON body's
"status" field equals "ok"; false on raised exceptions (transport or
parsing), on non-200 statuses, on non-dict bodies, and on other field
values. -/
def health_check (r : TResult) : Bool :=
  match r with
  | .error _ => false
  | .ok resp =>
    if resp.status_code = 200 then
      match resp.body with
      | none => false
      | some j =>
        match pyGet j "status" with
        | none => false
        | some v => isOkStr v
    else false

/-- The collection configuration `create_collection` sends: vector size as
given, distance hardcoded to the string "Cosine". -/
def create_collection_config (vector_size : Int) : JVal :=
  .obj [("vectors", .obj [("size", .num vector_size), ("distance", .str "Cosine")])]

/-- `QdrantClient.create_collection`: true iff the response status is 200 or
201; false on any raised exception and on every other status ("already
exists" responses included). -/
def create_collection (r : TResult) : Bool :=
  match r with
  | .error _ => false
  | .ok resp => resp.status_code == 200 || resp.status_code == 201

/-- The list comprehension `[col["name"] for col in cols]`: `none` models a
raise partway (non-dict element or missing key), which discards all partial
results. -/
def qdrantCollectionNames : List JVal → Option (List JVal)
  | [] => some []
  | c :: cs =>
    match pySub c "name" with
    | none => none
    | some v => (qdrantCollectionNames cs).map fun ns => v :: ns

/-- `QdrantClient.list_collections`: the names extracted from
`data["result"]["collections"]` on a 200 response, and `[]` on any raised
exception, non-200 status, unparseable body, or malformed shape. -/
def list_collections (r : TResult) : List JVal :=
  match r with
  | .error _ => []
  | .ok resp =>
    if resp.status_code = 200 then
      match resp.body with
      | none => []
      | some data =>
        match pyGetD data "result" (.obj []) with
        | none => []
        | some rv =>
          match pyGetD rv "collections" (.arr []) with
          | none => []
          | some colls =>
            match pyElems colls with
            | none => []
            | some cols =>
              match qdrantCollectionNames cols with
              | some names => names
              | none => []
    else []

/-- The payload `upsert_points` sends: the given points under "points". -/
def upsert_points_payload (points : List JVal) : JVal :=
  .obj [("points", .arr points)]

/-- `QdrantClient.upsert_points`: true iff status 200; false on any raised
exception and on every other status. -/
def upsert_points (r : TResult) : Bool :=
  match r with
  | .error _ => false
  | .ok resp => resp.status_code == 200

/-- `QdrantClient.search_points`: `response.json().get("result", [])` on a
200 response; the empty list on any raised exception, other status, or
unparseable/non-dict body. -/
def search_points (r : TResult) : JVal :=
  match r with
  | .error _ => .arr []
  | .ok resp =>
    if resp.status_code = 200 then
      match resp.body with
      | none => .arr []
      | some j =>
        match pyGetD j "result" (.arr []) with
        | some v => v
        | none => .arr []
    else .arr []

/-! ## Claims about the API-Client -/

/-- C2: for each of the five client operations, a raised transport exception
(`.error`) yields the documented sentinel (false or an empty sequence), and a
raised body-parsing exception (`body = none`, possible only in the three
operations that call `.json()`) likewise yields the sentinel; the operations
are total, so no exception crosses the client boundary. -/
theorem qdrant_ops_sentinels_on_exception (e : String) (sc : Nat) :
    health_check (.error e) = false ∧
    create_collection (.error e) = false ∧
    list_collections (.error e) = [] ∧
    upsert_points (.error e) = false ∧
    search_points (.error e) = .arr [] ∧
    health_check (.ok ⟨sc, none⟩) = false ∧
    list_collections (.ok ⟨sc, none⟩) = [] ∧
    search_points (.ok ⟨sc, none⟩) = .arr [] := by
  refine ⟨rfl, rfl, rfl, rfl, rfl, ?_, ?_, ?_⟩
  · simp only [health_check]
    split <;> rfl
  · simp only [list_collections]
    split <;> rfl
  · simp only [search_points]
    split <;> rfl

theorem isOkStr_eq_true_iff (v : Option JVal) :
    isOkStr v = true ↔ v = some (.str "ok") := by
  cases v with
  | none => simp [isOkStr]
  | some j => cases j <;> simp [isOkStr]

/-- C8: `health_check` returns true iff the transport produced a response
with status code 200 whose body parsed to a JSON object whose "status" field
is the string "ok"; every 200 response with any other body (unparseable,
non-object, missing or different "status") yields false. -/
theorem health_check_true_iff (r : TResult) :
    health_check r = true ↔
      ∃ fs : List (String × JVal),
        r = .ok ⟨200, some (.obj fs)⟩ ∧ plookup "status" fs = some (.str "ok") := by
  cases r with
  | error e => simp [health_check]
  | ok resp =>
    obtain ⟨sc, body⟩ := resp
    simp only [health_check]
    by_cases h200 : sc = 200
    · subst h200
      rw [if_pos rfl]
      cases body with
      | none => simp
      | some j =>
        cases j with
        | obj fs =>
          simp only [pyGet]
          rw [isOkStr_eq_true_iff]
          constructor
          · intro h
            exact ⟨fs, rfl, h⟩
          · rintro ⟨fs', heq, hst⟩
            simp only [Except.ok.injEq, HResp.mk.injEq, Option.some.injEq,
              JVal.obj.injEq, true_and] at heq
            subst heq
            exact hst
        | null => simp [pyGet]
        | bool b => simp [pyGet]
        | num n => simp [pyGet]
        | str s => simp [pyGet]
        | arr xs => simp [pyGet]
    · rw [if_neg h200]
      simp [h200]

/-- The collection configuration as the spec's words describe it: a
`distance` parameter, defaulting to the string "cosine", carried in the
request body alongside the vector size.  This definition follows the spec
sentence `create_collection(name, vector_size, distance="cosine")` and
exists only to compare against `create_collection_config`, which is what the
code actually sends. -/
def create_collection_config_spec (vector_size : Int) (distance : String) : JVal :=
  .obj [("vectors", .obj [("size", .num vector_size), ("distance", .str distance)])]

/-- C5 counterexample: at the default vector size 1536 the configuration the
code sends is not the configuration the claimed signature with
`distance="cosine"` would send: the code has no distance parameter and
hardcodes the differently-capitalised string "Cosine". -/
theorem create_collection_distance_counterexample :
    create_collection_config 1536 ≠ create_collection_config_spec 1536 "cosine" := by
  intro h
  simp only [create_collection_config, create_collection_config_spec,
    JVal.obj.injEq, List.cons.injEq, Prod.mk.injEq, JVal.str.injEq,
    and_true, true_and] at h
  exact absurd h (by decide)

/-- C5 (amended): `create_collection` takes `(collection_name,
vector_size=1536)` — distance is not a parameter; the request body always
carries the fixed distance string "Cosine" — it returns a boolean, and every
failing invocation returns false: raised exceptions and every status outside
{200, 201}, so an "already exists" rejection is indistinguishable from any
other failure. -/
theorem create_collection_failure_false (e : String) (resp : HResp)
    (h200 : resp.status_code ≠ 200) (h201 : resp.status_code ≠ 201) :
    create_collection (.error e) = false ∧
    create_collection (.ok resp) = false := by
  refine ⟨rfl, ?_⟩
  simp only [create_collection]
  simp [h200, h201]

/-- Witness for the amended C5: a 409 "already exists" style response and a
raised transport exception both return false. -/
theorem create_collection_failure_false_witness :
    (409 : Nat) ≠ 200 ∧ (409 : Nat) ≠ 201 ∧
    (create_collection (.error "connection refused") = false ∧
      create_collection (.ok ⟨409, none⟩) = false) :=
  ⟨by decide, by decide,
    create_collection_failure_false "connection refused" ⟨409, none⟩
      (by decide) (by decide)⟩

/-! ## RPC-Probe (`test-mcp.py`): the response read loop

`send_mcp_request` writes one JSON line to the server and then reads lines
from the merged stdout/stderr stream:

* a line that is `""` means end-of-stream (`readline` at EOF): print
  "No response received" and return `None`;
* otherwise the line is stripped; empty after stripping → skip;
* a stripped line starting with "time=" is a log line → skip;
* a stripped line that `json.loads` accepts is the response → return it;
* a stripped line that fails to parse is skipped.

The stream is modelled as the finite list of `readline` results (each line a
`List Char`, end of list = end of stream) and `json.loads` as an abstract
parameter `parse` (library code, outside this repository): `some` when the
text parses to a JSON value. -/

/-- The whitespace characters `str.strip` removes. -/
def pySpace (c : Char) : Bool :=
  c = ' ' || c = '\t' || c = '\n' || c = '\r' || c = '\x0b' || c = '\x0c'

/-- Python `str.strip()`. -/
def pyStrip (s : List Char) : List Char :=
  ((s.dropWhile pySpace).reverse.dropWhile pySpace).reverse

/-- The characters of the log-line marker "time=". -/
def timeMark : List Char := ['t', 'i', 'm', 'e', '=']

/-- The read loop of `send_mcp_request`. -/
def readLoop (parse : List Char → Option JVal) : List (List Char) → Option JVal
  | [] => none
  | l :: ls =>
    if l = [] then none
    else
      if pyStrip l = [] then readLoop parse ls
      else if timeMark.isPrefixOf (pyStrip l) then readLoop parse ls
      else
        match parse (pyStrip l) with
        | some j => some j
        | none => readLoop parse ls

/-! ## Claims about the RPC-Probe read loop -/

/-- C3: the read loop discards every leading line that is a log line
(stripped text starting with "time=") or fails to parse as JSON (blank lines
included), and returns the parsed object of the first line that parses. -/
theorem readLoop_returns_first_json (parse : List Char → Option JVal)
    (pre : List (List Char)) (good : List Char) (rest : List (List Char))
    (j : JVal)
    (hpre : ∀ l ∈ pre, l ≠ [] ∧
      (pyStrip l = [] ∨ timeMark.isPrefixOf (pyStrip l) = true ∨
        parse (pyStrip l) = none))
    (hg0 : good ≠ []) (hg1 : pyStrip good ≠ [])
    (hg2 : timeMark.isPrefixOf (pyStrip good) = false)
    (hg3 : parse (pyStrip good) = some j) :
    readLoop parse (pre ++ good :: rest) = some j := by
  induction pre with
  | nil =>
    rw [List.nil_append, readLoop]
    rw [if_neg hg0, if_neg hg1]
    simp only [hg2, Bool.false_eq_true, if_false]
    rw [hg3]
  | cons l pre' ih =>
    obtain ⟨hne, hdisc⟩ := hpre l (by simp)
    have hpre' : ∀ l ∈ pre', l ≠ [] ∧
        (pyStrip l = [] ∨ timeMark.isPrefixOf (pyStrip l) = true ∨
          parse (pyStrip l) = none) :=
      fun l hl => hpre l (by simp [hl])
    rw [List.cons_append, readLoop, if_neg hne]
    rcases hdisc with hblank | htime | hnoparse
    · rw [if_pos hblank]
      exact ih hpre'
    · rw [if_neg ?_, if_pos htime]
      · exact ih hpre'
      · intro hcontra
        rw [hcontra] at htime
        exact absurd htime (by decide)
    · by_cases hblank : pyStrip l = []
      · rw [if_pos hblank]
        exact ih hpre'
      · rw [if_neg hblank]
        by_cases htime : timeMark.isPrefixOf (pyStrip l) = true
        · rw [htime, if_pos rfl]
          exact ih hpre'
        · simp only [htime, if_neg]
          rw [hnoparse]
          exact ih hpre'

/-- Witness for C3: two skipped lines (a log line and a non-JSON line), then
a line the concrete parse function accepts. -/
theorem readLoop_returns_first_json_witness :
    (∀ l ∈ ([['t', 'i', 'm', 'e', '=', 'x'], [' '], ['h', 'i']] :
        List (List Char)), l ≠ [] ∧
      (pyStrip l = [] ∨ timeMark.isPrefixOf (pyStrip l) = true ∨
        (fun t => if t = ['o', 'k'] then some JVal.null else none)
          (pyStrip l) = none)) ∧
    (['o', 'k'] : List Char) ≠ [] ∧ pyStrip ['o', 'k'] ≠ [] ∧
    timeMark.isPrefixOf (pyStrip ['o', 'k']) = false ∧
    (fun t => if t = ['o', 'k'] then some JVal.null else none)
      (pyStrip ['o', 'k']) = some JVal.null ∧
    readLoop (fun t => if t = ['o', 'k'] then some JVal.null else none)
      ([['t', 'i', 'm', 'e', '=', 'x'], [' '], ['h', 'i']] ++
        ['o', 'k'] :: [['l', 'a', 't', 'e', 'r']]) = some JVal.null := by
  refine ⟨?_, by decide, by decide, by decide, by rfl, ?_⟩
  · intro l hl
    simp only [List.mem_cons, List.not_mem_nil, or_false] at hl
    rcases hl with rfl | rfl | rfl
    · exact ⟨by decide, Or.inr (Or.inl (by decide))⟩
    · exact ⟨by decide, Or.inl (by decide)⟩
    · exact ⟨by decide, Or.inr (Or.inr (by rfl))⟩
  · refine readLoop_returns_first_json _ _ _ _ _ ?_ (by decide) (by decide)
      (by decide) (by rfl)
    intro l hl
    simp only [List.mem_cons, List.not_mem_nil, or_false] at hl
    rcases hl with rfl | rfl | rfl
    · exact ⟨by decide, Or.inr (Or.inl (by decide))⟩
    · exact ⟨by decide, Or.inl (by decide)⟩
    · exact ⟨by decide, Or.inr (Or.inr (by rfl))⟩

/-- C9: when the merged stream ends (or yields only discardable lines)
before any line parses as JSON, the read loop returns `None` instead of a
response; being a total function of the finite stream, it cannot block
past end-of-stream. -/
theorem readLoop_none_when_no_json (parse : List Char → Option JVal)
    (lines : List (List Char))
    (h : ∀ l ∈ lines, pyStrip l = [] ∨
      timeMark.isPrefixOf (pyStrip l) = true ∨ parse (pyStrip l) = none) :
    readLoop parse lines = none := by
  induction lines with
  | nil => rfl
  | cons l ls ih =>
    have hl := h l (by simp)
    have h' : ∀ l ∈ ls, pyStrip l = [] ∨
        timeMark.isPrefixOf (pyStrip l) = true ∨ parse (pyStrip l) = none :=
      fun l hml => h l (by simp [hml])
    rw [readLoop]
    by_cases hemp : l = []
    · rw [if_pos hemp]
    · rw [if_neg hemp]
      by_cases hblank : pyStrip l = []
      · rw [if_pos hblank]
        exact ih h'
      · rw [if_neg hblank]
        by_cases htime : timeMark.isPrefixOf (pyStrip l) = true
        · rw [htime, if_pos rfl]
          exact ih h'
        · simp only [htime, if_neg]
          have hnoparse : parse (pyStrip l) = none := by
            rcases hl with hx | hx | hx
            · exact absurd hx hblank
            · exact absurd hx htime
            · exact hx
          rw [hnoparse]
          exact ih h'

/-- Witness for C9: a log line and an immediate end of stream. -/
theorem readLoop_none_when_no_json_witness :
    (∀ l ∈ ([['t', 'i', 'm', 'e', '=', 'a'], [' ', ' ']] : List (List Char)),
      pyStrip l = [] ∨ timeMark.isPrefixOf (pyStrip l) = true ∨
        (fun _ => (none : Option JVal)) (pyStrip l) = none) ∧
    readLoop (fun _ => (none : Option JVal))
      [['t', 'i', 'm', 'e', '=', 'a'], [' ', ' ']] = none := by
  refine ⟨?_, ?_⟩
  · intro l hl
    simp only [List.mem_cons, List.not_mem_nil, or_false] at hl
    rcases hl with rfl | rfl
    · exact Or.inr (Or.inl (by decide))
    · exact Or.inl (by decide)
  · refine readLoop_none_when_no_json _ _ ?_
    intro l hl
    simp only [List.mem_cons, List.not_mem_nil, or_false] at hl
    rcases hl with rfl | rfl
    · exact Or.inr (Or.inl (by decide))
    · exact Or.inl (by decide)

/-! ## RPC-Probe: the `test_mcp_server` run

The probe sends `initialize` (id 1), then `tools/list` (id 2), then — when at
least one tool was listed — `tools/call` on the first tool (id 3).  Every
step checks `response and response.get('result')`; a falsy initialize result
prints a failure and returns; any exception raised along the way (modelled
by the `none` results of the `py*` helpers) propagates to the enclosing
`except` block.  Either way the `finally` block then runs the teardown.

The observables here are the list of requests actually sent and whether
teardown ran; the responses the server produces for the three requests are
the inputs `r1 r2 r3` (`none` when `send_mcp_request` returned `None`).
Display code that runs only after the last request is sent (the tool-call
result preview) cannot change either observable and is not modelled. -/

/-- The three JSON-RPC requests the probe can send.  `toolsCall` carries
`first_tool.get('name')` (Python `None` when the tool has no name field). -/
inductive McpReq where
  | init : McpReq
  | toolsList : McpReq
  | toolsCall : Option JVal → McpReq

/-- Observables of one probe run: requests sent, and whether teardown ran. -/
structure McpTrace where
  sent : List McpReq
  teardown : Bool

/-- The prints after a successful initialize:
`response['result'].get('serverInfo', {})` and the two `.get`s on it; `none`
models a raised `AttributeError` (non-dict result or serverInfo value). -/
def initDisplay (v1 : JVal) : Option Unit := do
  let rv ← pySub v1 "result"
  let si ← pyGetD rv "serverInfo" (.obj [])
  let _ ← pyGetD si "name" (.str "Unknown")
  let _ ← pyGetD si "version" (.str "Unknown")
  pure ()

/-- `response['result'].get('tools', [])`. -/
def toolsOf (v2 : JVal) : Option JVal := do
  let rv ← pySub v2 "result"
  pyGetD rv "tools" (.arr [])

/-- The loop body prints of `for tool in tools[:5]`: each tool's name,
description and the `[:80]` slice of the description. -/
def displayTools : List JVal → Option Unit
  | [] => some ()
  | t :: ts => do
    let _ ← pyGetD t "name" (.str "Unknown")
    let d ← pyGetD t "description" (.str "No description")
    let _ ← pySlice d 80
    displayTools ts

/-- The whole tools listing display: `len(tools)`, `tools[:5]`, and the
per-tool prints. -/
def listToolsDisplay (tools : JVal) : Option Unit := do
  let _ ← pyLen tools
  let t5 ← pySlice tools 5
  let elems ← pyElems t5
  displayTools elems

/-- `tools[0].get('name')`: outer `none` is a raise, the inner option is the
Python value (None when the key is missing). -/
def firstToolName (tools : JVal) : Option (Option JVal) := do
  let ft ← pyIndex0 tools
  pyGet ft "name"

/-- The probe run as a function of the three responses.  Teardown is in a
`finally` block, so every branch — normal return, early `return` on a failed
initialize, or a raised exception — carries `teardown = true`. -/
def testMcpServer (r1 r2 r3 : Option JVal) : McpTrace :=
  let s1 : List McpReq := [.init]
  match r1 with
  | none => ⟨s1, true⟩
  | some v1 =>
    if pyTruthy v1 then
      match pyGet v1 "result" with
      | none => ⟨s1, true⟩
      | some res1 =>
        if pyTruthyOpt res1 then
          match initDisplay v1 with
          | none => ⟨s1, true⟩
          | some _ =>
            let s2 : List McpReq := s1 ++ [.toolsList]
            match r2 with
            | none => ⟨s2, true⟩
            | some v2 =>
              if pyTruthy v2 then
                match pyGet v2 "result" with
                | none => ⟨s2, true⟩
                | some res2 =>
                  if pyTruthyOpt res2 then
                    match toolsOf v2 with
                    | none => ⟨s2, true⟩
                    | some tools =>
                      match listToolsDisplay tools with
                      | none => ⟨s2, true⟩
                      | some _ =>
                        match toolsOf v2 with
                        | none => ⟨s2, true⟩
                        | some tools2 =>
                          if pyTruthy tools2 then
                            match firstToolName tools2 with
                            | none => ⟨s2, true⟩
                            | some tname =>
                              ⟨s2 ++ [.toolsCall tname], true⟩
                          else ⟨s2, true⟩
                  else ⟨s2, true⟩
              else ⟨s2, true⟩
        else ⟨s1, true⟩
    else ⟨s1, true⟩

/-! ## Claim about the RPC-Probe run -/

/-- C4: when the initialize response is an object with no `result` field,
the probe sends nothing beyond the initialize request itself — neither
`tools/list` nor `tools/call` — and teardown still runs. -/
theorem probe_aborts_without_result (o1 : List (String × JVal))
    (r2 r3 : Option JVal) (hnores : plookup "result" o1 = none) :
    testMcpServer (some (.obj o1)) r2 r3 = ⟨[.init], true⟩ := by
  rw [testMcpServer]
  by_cases htr : pyTruthy (.obj o1) = true
  · rw [if_pos htr]
    simp only [pyGet, hnores]
    rfl
  · rw [if_neg htr]

/-- Witness for C4: an initialize response carrying only an `error` field. -/
theorem probe_aborts_without_result_witness :
    plookup "result" [("error", JVal.str "boom")] = none ∧
    testMcpServer (some (.obj [("error", JVal.str "boom")])) none none =
      ⟨[.init], true⟩ :=
  ⟨by rfl, probe_aborts_without_result [("error", JVal.str "boom")] none none (by rfl)⟩
